import Mathlib

/-!
# Verification of the DJ-de-Prompt-MIDI streaming playback engine

A shallow embedding of `LiveMusicHelper` (the streaming playback engine) and
`MidiDispatcher` from the repository, together with theorems settling the
frozen claims about gapless scheduling, underrun recovery, the playback state
machine, prompt filtering, connection-error handling, and MIDI pitch-bend
dispatch.

Audio-clock times and buffer durations are embedded as rationals (`ℚ`): all
arithmetic the engine performs on them (addition, comparison) is exact in
IEEE doubles for the magnitudes involved, so `ℚ` is a faithful model.
Side effects (event dispatch, scheduling a source node, arming a timer,
outbound session calls) are reified as an explicit effect list returned by
each operation.
-/

namespace PromptDj

/-- The playback state machine of the engine (`PlaybackState` in types). -/
inductive PlayState where
  | stopped
  | loading
  | playing
  | paused
deriving DecidableEq, Repr

/-- A prompt as the engine reads it: identity, text and weight
(`Prompt` in types; color and controller binding are never read
by the engine). -/
structure Prompt where
  promptId : String
  text : String
  weight : ℚ
deriving DecidableEq, Repr

/-- Observable side effects of one engine operation, in emission order. -/
inductive Effect where
  /-- `dispatchEvent(new CustomEvent('playback-state-changed', ...))` -/
  | playbackStateChanged (st : PlayState)
  /-- `dispatchEvent(new CustomEvent('error', { detail: msg }))` -/
  | errorEvent (msg : String)
  /-- `dispatchEvent(new CustomEvent('filtered-prompt', ...))` -/
  | filteredPromptEvent (txt : String)
  /-- `source.start(start)` for a decoded buffer of the given duration -/
  | scheduled (start duration : ℚ)
  /-- `setTimeout(() => setPlaybackState('playing'), bufferTime * 1000)`,
      recorded with its absolute fire deadline on the shared timeline -/
  | timerArmed (deadline : ℚ)
  /-- `session.setWeightedPrompts({ weightedPrompts })` -/
  | pushPrompts (wps : List (String × ℚ))
  /-- `session.play()` -/
  | sessionPlay
  /-- `session.pause()` -/
  | sessionPause
  /-- `session.stop()` -/
  | sessionStop
  /-- `session.sendControlChanges({ pitchBend: v })` -/
  | pitchBendSent (v : ℚ)
deriving DecidableEq, Repr

/-- The mutable fields of `LiveMusicHelper` that the claims are about.
`pendingTimers` reifies the `setTimeout` calls armed by
`processAudioChunks` that have not yet fired (the code never stores or
cancels these handles). Audio-node objects (gain, EQ) carry no
engine-visible state relevant to the claims and are omitted. -/
structure HelperState where
  playbackState : PlayState
  /-- `nextStartTime`, the ScheduleCursor; 0 means "not yet scheduled / reset" -/
  nextStartTime : ℚ
  /-- `session !== null` -/
  sessionActive : Bool
  /-- `sessionPromise !== null` -/
  sessionPromiseActive : Bool
  connectionError : Bool
  /-- `filteredPrompts` set, modelled as the list of inserted texts -/
  filteredPrompts : List String
  /-- `prompts` map, modelled as the list of its values in insertion order -/
  prompts : List Prompt
  /-- absolute deadlines of armed, not-yet-fired "flip to playing" timers -/
  pendingTimers : List ℚ
deriving DecidableEq, Repr

/-- `bufferTime = 2` (seconds), a fixed constant of the class. -/
def bufferTime : ℚ := 2

/-- The initial state of a fresh `LiveMusicHelper`. -/
def initialState : HelperState :=
  { playbackState := .stopped
    nextStartTime := 0
    sessionActive := false
    sessionPromiseActive := false
    connectionError := true
    filteredPrompts := []
    prompts := []
    pendingTimers := [] }

/-- `setPlaybackState`: store the state and dispatch the change event. -/
def setPlaybackState (s : HelperState) (st : PlayState) :
    HelperState × List Effect :=
  ({ s with playbackState := st }, [Effect.playbackStateChanged st])

/-- The entry guard of `processAudioChunks` (line 120):
processing continues only when not paused and not stopped. -/
def chunkGuard (s : HelperState) : Bool :=
  !(decide (s.playbackState = .paused) || decide (s.playbackState = .stopped))

/-- Lines 127–143 of `processAudioChunks`: everything after the awaited
decode completes. `t` is the reading of `audioContext.currentTime` in this
event-loop turn, `d` the decoded buffer's duration. The `setTimeout` armed
in the cursor-0 branch is recorded with deadline `t + bufferTime`
(its delay is `bufferTime * 1000` ms from now). -/
def scheduleDecoded (s : HelperState) (t d : ℚ) : HelperState × List Effect :=
  let s1 :=
    if s.nextStartTime = 0 then
      { s with nextStartTime := t + bufferTime
               pendingTimers := s.pendingTimers ++ [t + bufferTime] }
    else s
  let eff1 : List Effect :=
    if s.nextStartTime = 0 then [Effect.timerArmed (t + bufferTime)] else []
  if s1.nextStartTime < t then
    let (s2, eff2) := setPlaybackState s1 .loading
    ({ s2 with nextStartTime := 0 }, eff1 ++ eff2)
  else
    ({ s1 with nextStartTime := s1.nextStartTime + d },
     eff1 ++ [Effect.scheduled s1.nextStartTime d])

/-- `processAudioChunks` run to completion in one go (no interleaving):
the entry guard, then the decode, then `scheduleDecoded`. Only
`audioChunks[0]` is decoded, so one call consumes one `(t, d)` pair. -/
def processAudioChunks (s : HelperState) (t d : ℚ) :
    HelperState × List Effect :=
  if chunkGuard s then scheduleDecoded s t d else (s, [])

/-- One armed "flip to playing" timer fires: `setPlaybackState('playing')`.
A no-op when no timer is pending. -/
def fireTimer (s : HelperState) : HelperState × List Effect :=
  match s.pendingTimers with
  | [] => (s, [])
  | _ :: rest => setPlaybackState { s with pendingTimers := rest } .playing

/-- `pause()` (lines 214–222): signal the session if present, set state
`paused`, ramp the gain (node-level automation, no engine state), reset the
cursor, and rebuild the output node (again no engine-visible state). -/
def pause (s : HelperState) : HelperState × List Effect :=
  let eff0 : List Effect := if s.sessionActive then [Effect.sessionPause] else []
  let (s1, eff1) := setPlaybackState s .paused
  ({ s1 with nextStartTime := 0 }, eff0 ++ eff1)

/-- `stop()` (lines 224–232): signal the session if present, set state
`stopped`, ramp the gain down, reset the cursor, null the session handle
and the pending connect promise. Note: armed timers are NOT cancelled. -/
def stop (s : HelperState) : HelperState × List Effect :=
  let eff0 : List Effect := if s.sessionActive then [Effect.sessionStop] else []
  let (s1, eff1) := setPlaybackState s .stopped
  ({ s1 with nextStartTime := 0
             sessionActive := false
             sessionPromiseActive := false },
   eff0 ++ eff1)

/-- The error message dispatched by the connection callbacks. -/
def connectionErrorMsg : String := "Erro de conexão, por favor, reinicie o áudio."

/-- The `onerror` connection callback (lines 99–103): mark the connection
errored, run `stop()`, dispatch a user-facing error. -/
def onError (s : HelperState) : HelperState × List Effect :=
  let (s1, eff1) := stop { s with connectionError := true }
  (s1, eff1 ++ [Effect.errorEvent connectionErrorMsg])

/-- The `onclose` connection callback (lines 104–108), textually identical
to `onerror` in the source. -/
def onClose (s : HelperState) : HelperState × List Effect :=
  let (s1, eff1) := stop { s with connectionError := true }
  (s1, eff1 ++ [Effect.errorEvent connectionErrorMsg])

/-- The `filteredPrompt` branch of `onmessage` (lines 91–94): grow the
filtered set and dispatch the notification. -/
def onFilteredPrompt (s : HelperState) (txt : String) :
    HelperState × List Effect :=
  ({ s with filteredPrompts := s.filteredPrompts ++ [txt] },
   [Effect.filteredPromptEvent txt])

/-- The `activePrompts` getter (lines 145–150): prompts whose text is not
filtered and whose weight is nonzero. -/
def activePrompts (prompts : List Prompt) (filtered : List String) :
    List Prompt :=
  prompts.filter fun p =>
    !(filtered.contains p.text) && !(decide (p.weight = 0))

/-- The error message for an empty active-prompt set. -/
def noActiveMsg : String :=
  "É necessário ter pelo menos um prompt ativo para tocar."

/-- The body of `setWeightedPrompts` (lines 152–176), the function inside
the throttle wrapper. `pushOk` models whether the remote accepts the push;
`emsg` is the rejected push's exception message. The push call is emitted
whenever it is attempted; on rejection the catch branch dispatches the
error and pauses. -/
def setWeightedPromptsStep (s : HelperState) (ps : List Prompt)
    (pushOk : Bool) (emsg : String) : HelperState × List Effect :=
  let s0 := { s with prompts := ps }
  if (activePrompts ps s0.filteredPrompts).length = 0 then
    let (s1, eff1) := pause s0
    (s1, Effect.errorEvent noActiveMsg :: eff1)
  else if !s0.sessionActive then (s0, [])
  else
    let wps := (activePrompts ps s0.filteredPrompts).map fun p =>
      (p.text, p.weight)
    if pushOk then (s0, [Effect.pushPrompts wps])
    else
      let (s1, eff1) := pause s0
      (s1, Effect.pushPrompts wps :: Effect.errorEvent emsg :: eff1)

/-- The body of `setPitchBend` (lines 178–189): forward the value unless
there is no session or state is stopped/paused. -/
def setPitchBendStep (s : HelperState) (v : ℚ) : HelperState × List Effect :=
  if !s.sessionActive || decide (s.playbackState = .stopped)
      || decide (s.playbackState = .paused) then (s, [])
  else (s, [Effect.pitchBendSent v])

/-- `play()` (lines 201–212): set state `loading`, ensure a session
(`getSession` creates the handle and the promise), push the current
prompts through `setWeightedPrompts`, then resume the clock and signal
`session.play()`. Gain ramps are node-level automation with no
engine-visible state. -/
def play (s : HelperState) (pushOk : Bool) (emsg : String) :
    HelperState × List Effect :=
  let (s1, eff1) := setPlaybackState s .loading
  let s2 := { s1 with sessionActive := true, sessionPromiseActive := true }
  let (s3, eff3) := setWeightedPromptsStep s2 s2.prompts pushOk emsg
  (s3, eff1 ++ eff3 ++ [Effect.sessionPlay])

/-- The operations that can mutate the engine's state, for stating
whole-system properties such as "only the timer flips state to playing". -/
inductive Op where
  | playOp (pushOk : Bool) (emsg : String)
  | pauseOp
  | stopOp
  | timerFire
  | procChunk (t d : ℚ)
  | onErrorOp
  | onCloseOp
  | setPromptsOp (ps : List Prompt) (pushOk : Bool) (emsg : String)
  | setPitchBendOp (v : ℚ)
  | filteredPromptOp (txt : String)
deriving DecidableEq, Repr

/-- One step of the engine: dispatch on the operation. -/
def step (s : HelperState) : Op → HelperState × List Effect
  | .playOp ok m => play s ok m
  | .pauseOp => pause s
  | .stopOp => stop s
  | .timerFire => fireTimer s
  | .procChunk t d => processAudioChunks s t d
  | .onErrorOp => onError s
  | .onCloseOp => onClose s
  | .setPromptsOp ps ok m => setWeightedPromptsStep s ps ok m
  | .setPitchBendOp v => setPitchBendStep s v
  | .filteredPromptOp txt => onFilteredPrompt s txt

/-! ### Sequences of chunks

A chunk arrival is a pair `(t, d)`: the audio-clock reading when its decode
completes and the decoded buffer's duration. -/

/-- Run `processAudioChunks` over a list of chunk arrivals in order,
concatenating the emitted effects. -/
def processChunks (s : HelperState) : List (ℚ × ℚ) → HelperState × List Effect
  | [] => (s, [])
  | c :: rest =>
      let (s1, e1) := processAudioChunks s c.1 c.2
      let (s2, e2) := processChunks s1 rest
      (s2, e1 ++ e2)

/-- The gapless schedule starting at cursor `c`: each buffer starts where
the previous one ends. -/
def chainFrom (c : ℚ) : List (ℚ × ℚ) → List Effect
  | [] => []
  | x :: rest => Effect.scheduled c x.2 :: chainFrom (c + x.2) rest

/-- Total duration of a list of chunk arrivals. -/
def sumDur : List (ℚ × ℚ) → ℚ
  | [] => 0
  | x :: rest => x.2 + sumDur rest

/-- The start times of the `scheduled` effects in an effect list, in order. -/
def startsOf : List Effect → List ℚ
  | [] => []
  | Effect.scheduled st _ :: rest => st :: startsOf rest
  | _ :: rest => startsOf rest

/-- Every chunk of the run arrives in the steady regime of the claim: the
entry guard passes, the cursor is nonzero, and the cursor is not behind the
audio clock. -/
def steadyRunB (s : HelperState) : List (ℚ × ℚ) → Bool
  | [] => true
  | c :: rest =>
      chunkGuard s && !(decide (s.nextStartTime = 0))
        && decide (c.1 ≤ s.nextStartTime)
        && steadyRunB (processAudioChunks s c.1 c.2).1 rest

/-! ### MidiDispatcher -/

/-- Events dispatched by `MidiDispatcher`'s `onmidimessage` handler. -/
inductive MidiEvent where
  /-- `CustomEvent('cc-message', { detail: { cc, value, channel } })` -/
  | ccMessage (cc value channel : ℕ)
  /-- `CustomEvent('pitch-bend-message', { detail: v })` -/
  | pitchBend (v : ℚ)
deriving DecidableEq, Repr

/-- The `onmidimessage` handler installed by `getMidiAccess`
(src/utils/MidiDispatcher.ts lines 36–64) for an input with id `inputId`,
given the dispatcher's `activeMidiInputId` (`none` models `null`) and the
message's `data` (`none` models a missing data array). Byte values are
exact in IEEE doubles, so the normalized pitch-bend value is modelled in
`ℚ`. Returns the dispatched events. -/
def onMidiMessage (activeId : Option String) (inputId : String)
    (data : Option (List ℕ)) : List MidiEvent :=
  if some inputId ≠ activeId then []
  else
    match data with
    | none => []
    | some bytes =>
      let statusByte := bytes.getD 0 0
      let channel := statusByte &&& 0x0f
      let messageType := statusByte &&& 0xf0
      if messageType = 0xb0 then
        [MidiEvent.ccMessage (bytes.getD 1 0) (bytes.getD 2 0) channel]
      else if messageType = 0xe0 then
        let lsb := bytes.getD 1 0
        let msb := bytes.getD 2 0
        let rawValue := (msb <<< 7) ||| lsb
        let normalizedValue : ℚ := ((rawValue : ℚ) - 8192) / 8192
        [MidiEvent.pitchBend normalizedValue]
      else []

/-! ### Concrete fixture states used by witnesses and counterexamples -/

/-- A state in the middle of normal playback: playing, cursor at 2 s,
live session. -/
def playingState : HelperState :=
  { initialState with
      playbackState := .playing
      nextStartTime := 2
      sessionActive := true
      sessionPromiseActive := true
      connectionError := false }

/-- A state right after `play()` was called and the session connected,
before the first chunk: loading, cursor 0. -/
def loadingState : HelperState :=
  { initialState with
      playbackState := .loading
      sessionActive := true
      sessionPromiseActive := true
      connectionError := false }

/-- A paused state with a live session. -/
def pausedState : HelperState :=
  { initialState with
      playbackState := .paused
      sessionActive := true
      sessionPromiseActive := true
      connectionError := false }

/-- The chunk sequence of the steady-regime witness: durations 1 s,
arriving at clock times 0 and 1 while the cursor is ahead. -/
def witnessChunks : List (ℚ × ℚ) := [(0, 1), (1, 1)]

/-- A prompt with nonzero weight. -/
def promptA : Prompt := { promptId := "a", text := "Techno", weight := 1 }

/-- A prompt with weight 0 (inactive). -/
def promptB : Prompt := { promptId := "b", text := "Ambient", weight := 0 }

/-- The weighted-prompt list expected to be pushed for
`[promptA, promptB]` with nothing filtered. -/
def pushedAB : List (String × ℚ) := [("Techno", 1)]

/-! ## Shared lemmas about single chunk-processing steps -/

lemma processAudioChunks_steady (s : HelperState) (t d : ℚ)
    (hg : chunkGuard s = true) (h0 : s.nextStartTime ≠ 0)
    (hle : t ≤ s.nextStartTime) :
    processAudioChunks s t d =
      ({ s with nextStartTime := s.nextStartTime + d },
       [Effect.scheduled s.nextStartTime d]) := by
  rw [processAudioChunks, if_pos hg, scheduleDecoded]
  simp [if_neg h0, not_lt.mpr hle]

lemma scheduleDecoded_first (s : HelperState) (t d : ℚ)
    (h0 : s.nextStartTime = 0) :
    scheduleDecoded s t d =
      ({ s with nextStartTime := t + bufferTime + d,
                pendingTimers := s.pendingTimers ++ [t + bufferTime] },
       [Effect.timerArmed (t + bufferTime),
        Effect.scheduled (t + bufferTime) d]) := by
  have hnl : ¬(t + bufferTime < t) := by
    rw [bufferTime]; linarith
  rw [scheduleDecoded]
  simp [if_pos h0, hnl]

lemma processAudioChunks_first (s : HelperState) (t d : ℚ)
    (hg : chunkGuard s = true) (h0 : s.nextStartTime = 0) :
    processAudioChunks s t d =
      ({ s with nextStartTime := t + bufferTime + d,
                pendingTimers := s.pendingTimers ++ [t + bufferTime] },
       [Effect.timerArmed (t + bufferTime),
        Effect.scheduled (t + bufferTime) d]) := by
  rw [processAudioChunks, if_pos hg]
  exact scheduleDecoded_first s t d h0

lemma processAudioChunks_underrun (s : HelperState) (t d : ℚ)
    (hg : chunkGuard s = true) (h0 : s.nextStartTime ≠ 0)
    (hlt : s.nextStartTime < t) :
    processAudioChunks s t d =
      ({ s with playbackState := .loading, nextStartTime := 0 },
       [Effect.playbackStateChanged .loading]) := by
  rw [processAudioChunks, if_pos hg, scheduleDecoded]
  simp [if_neg h0, hlt, setPlaybackState]

lemma processChunks_steady (chunks : List (ℚ × ℚ)) :
    ∀ s : HelperState, steadyRunB s chunks = true →
    processChunks s chunks =
      ({ s with nextStartTime := s.nextStartTime + sumDur chunks },
       chainFrom s.nextStartTime chunks) := by
  induction chunks with
  | nil =>
      intro s _
      simp [processChunks, sumDur, chainFrom]
  | cons c rest ih =>
      intro s h
      rw [steadyRunB] at h
      simp only [Bool.and_eq_true, Bool.not_eq_true', decide_eq_true_eq,
        decide_eq_false_iff_not] at h
      obtain ⟨⟨⟨hg, h0⟩, hle⟩, hrest⟩ := h
      rw [processChunks]
      rw [processAudioChunks_steady s c.1 c.2 hg h0 hle] at hrest ⊢
      simp only [ih _ hrest]
      simp [sumDur, chainFrom, Prod.ext_iff, HelperState.mk.injEq, add_assoc]

lemma chain_startsOf_chainFrom (l : List (ℚ × ℚ)) :
    ∀ c : ℚ, (∀ x ∈ l, 0 ≤ x.2) →
    List.Chain' (fun a b => a ≤ b) (startsOf (chainFrom c l)) := by
  induction l with
  | nil => intro c _; simp [chainFrom, startsOf]
  | cons x rest ih =>
      intro c hd
      have h0 : 0 ≤ x.2 := hd x (by simp)
      have hrest : ∀ y ∈ rest, 0 ≤ y.2 := fun y hy => hd y (by simp [hy])
      rw [chainFrom, startsOf, List.chain'_cons']
      refine ⟨?_, ih (c + x.2) hrest⟩
      intro a ha
      cases rest with
      | nil => simp [chainFrom, startsOf] at ha
      | cons y rest' =>
          rw [chainFrom, startsOf] at ha
          simp at ha
          rw [← ha]
          linarith

lemma setWeightedPromptsStep_playbackState (s : HelperState) (ps : List Prompt)
    (ok : Bool) (m : String) :
    (setWeightedPromptsStep s ps ok m).1.playbackState = .paused ∨
    (setWeightedPromptsStep s ps ok m).1.playbackState = s.playbackState := by
  rw [setWeightedPromptsStep]
  split_ifs <;> simp [pause, setPlaybackState]

lemma processAudioChunks_playbackState (s : HelperState) (t d : ℚ) :
    (processAudioChunks s t d).1.playbackState = s.playbackState ∨
    (processAudioChunks s t d).1.playbackState = .loading := by
  rw [processAudioChunks, scheduleDecoded]
  split_ifs <;> simp [setPlaybackState]

lemma step_playing_source (s : HelperState) (op : Op)
    (h : (step s op).1.playbackState = .playing) :
    op = .timerFire ∨ s.playbackState = .playing := by
  cases op with
  | playOp ok m =>
      exfalso
      simp only [step, play, setPlaybackState] at h
      rcases setWeightedPromptsStep_playbackState
          { s with playbackState := .loading, sessionActive := true,
                   sessionPromiseActive := true } _ ok m with h1 | h1 <;>
        rw [h1] at h <;> simp at h
  | pauseOp => simp [step, pause, setPlaybackState] at h
  | stopOp => simp [step, stop, setPlaybackState] at h
  | timerFire => exact Or.inl rfl
  | procChunk t d =>
      rcases processAudioChunks_playbackState s t d with h1 | h1
      · right; rw [step] at h; rw [h1] at h; exact h
      · exfalso; rw [step] at h; rw [h1] at h; simp at h
  | onErrorOp => simp [step, onError, stop, setPlaybackState] at h
  | onCloseOp => simp [step, onClose, stop, setPlaybackState] at h
  | setPromptsOp ps ok m =>
      rcases setWeightedPromptsStep_playbackState s ps ok m with h1 | h1
      · exfalso; rw [step] at h; rw [h1] at h; simp at h
      · right; rw [step] at h; rw [h1] at h; exact h
  | setPitchBendOp v =>
      right
      rw [step, setPitchBendStep] at h
      split_ifs at h <;> exact h
  | filteredPromptOp txt =>
      right
      simp only [step, onFilteredPrompt] at h
      exact h

lemma fireTimer_fires (s : HelperState) (dl : ℚ) (rest : List ℚ)
    (hp : s.pendingTimers = dl :: rest) :
    fireTimer s = ({ s with playbackState := .playing,
                            pendingTimers := rest },
                   [Effect.playbackStateChanged .playing]) := by
  simp [fireTimer, hp, setPlaybackState]

/-! ## Claims -/

/-- **C1**: for every chunk processed while the ScheduleCursor is nonzero and
not behind the audio clock (and the entry guard passes), the buffer is
scheduled to start exactly at the cursor and the cursor advances by exactly
the buffer's duration; hence across any such sequence the emitted schedule is
the contiguous chain starting at the initial cursor — each start equals the
previous start plus the previous duration, the final cursor is the initial
cursor plus the total duration, and (durations being nonnegative) the start
times are non-decreasing. -/
theorem steady_chunks_gapless (s : HelperState) (chunks : List (ℚ × ℚ))
    (h : steadyRunB s chunks = true) :
    (processChunks s chunks).2 = chainFrom s.nextStartTime chunks ∧
    (processChunks s chunks).1.nextStartTime =
      s.nextStartTime + sumDur chunks ∧
    ((∀ x ∈ chunks, 0 ≤ x.2) →
      List.Chain' (fun a b => a ≤ b)
        (startsOf (processChunks s chunks).2)) := by
  rw [processChunks_steady chunks s h]
  exact ⟨rfl, rfl, fun hd => chain_startsOf_chainFrom chunks s.nextStartTime hd⟩

/-- Witness for C1 at a concrete run: playing, cursor 2, two 1-second
chunks arriving at clock times 0 and 1. -/
theorem steady_chunks_gapless_witness :
    steadyRunB playingState witnessChunks = true ∧
    ((processChunks playingState witnessChunks).2 =
        chainFrom playingState.nextStartTime witnessChunks ∧
      (processChunks playingState witnessChunks).1.nextStartTime =
        playingState.nextStartTime + sumDur witnessChunks ∧
      ((∀ x ∈ witnessChunks, 0 ≤ x.2) →
        List.Chain' (fun a b => a ≤ b)
          (startsOf (processChunks playingState witnessChunks).2))) :=
  ⟨by simp +decide [steadyRunB, chunkGuard, processAudioChunks,
      scheduleDecoded, setPlaybackState, playingState, initialState,
      bufferTime, witnessChunks]; norm_num,
   steady_chunks_gapless playingState witnessChunks
    (by simp +decide [steadyRunB, chunkGuard, processAudioChunks,
      scheduleDecoded, setPlaybackState, playingState, initialState,
      bufferTime, witnessChunks]; norm_num)⟩

/-- **C2**: a chunk processed while the ScheduleCursor is 0 (first buffer
since a reset, entry guard passing) sets the cursor to the audio-clock
reading plus the fixed 2-second `bufferTime` — the buffer is then scheduled
exactly there, leaving the cursor at that value plus the buffer's duration —
and arms a one-shot timer `bufferTime` seconds out whose firing performs
`setPlaybackState('playing')`; moreover firing such a timer is the only
engine operation that can produce the `playing` state from a non-`playing`
state. -/
theorem first_chunk_arms_timer (s : HelperState) (t d : ℚ)
    (hg : chunkGuard s = true) (h0 : s.nextStartTime = 0) :
    processAudioChunks s t d =
      ({ s with nextStartTime := t + bufferTime + d,
                pendingTimers := s.pendingTimers ++ [t + bufferTime] },
       [Effect.timerArmed (t + bufferTime),
        Effect.scheduled (t + bufferTime) d]) ∧
    bufferTime = 2 ∧
    (∀ (s' : HelperState) (dl : ℚ) (rest : List ℚ),
      s'.pendingTimers = dl :: rest →
      fireTimer s' = ({ s' with playbackState := .playing,
                                pendingTimers := rest },
                      [Effect.playbackStateChanged .playing])) ∧
    (∀ (s' : HelperState) (op : Op),
      (step s' op).1.playbackState = .playing →
      op = .timerFire ∨ s'.playbackState = .playing) :=
  ⟨processAudioChunks_first s t d hg h0, rfl, fireTimer_fires,
   step_playing_source⟩

/-- Witness for C2: the first chunk (duration 1 s) arriving at clock time 0
in the loading state. -/
theorem first_chunk_arms_timer_witness :
    (chunkGuard loadingState = true ∧ loadingState.nextStartTime = 0) ∧
    (processAudioChunks loadingState 0 1 =
      ({ loadingState with
          nextStartTime := 0 + bufferTime + 1,
          pendingTimers := loadingState.pendingTimers ++ [0 + bufferTime] },
       [Effect.timerArmed (0 + bufferTime),
        Effect.scheduled (0 + bufferTime) 1]) ∧
     bufferTime = 2 ∧
     (∀ (s' : HelperState) (dl : ℚ) (rest : List ℚ),
       s'.pendingTimers = dl :: rest →
       fireTimer s' = ({ s' with playbackState := .playing,
                                 pendingTimers := rest },
                       [Effect.playbackStateChanged .playing])) ∧
     (∀ (s' : HelperState) (op : Op),
       (step s' op).1.playbackState = .playing →
       op = .timerFire ∨ s'.playbackState = .playing)) :=
  ⟨⟨by simp +decide [chunkGuard, loadingState, initialState], rfl⟩,
   first_chunk_arms_timer loadingState 0 1
    (by simp +decide [chunkGuard, loadingState, initialState]) rfl⟩

/-- **C3**: a chunk arriving when the cursor is nonzero and strictly earlier
than the audio clock (underrun) flips the state to `loading`, resets the
cursor to 0, and returns without scheduling the buffer: the only effect is
the state-change notification, and no `scheduled` effect is emitted. -/
theorem underrun_drops_chunk (s : HelperState) (t d : ℚ)
    (hg : chunkGuard s = true) (h0 : s.nextStartTime ≠ 0)
    (hlt : s.nextStartTime < t) :
    processAudioChunks s t d =
      ({ s with playbackState := .loading, nextStartTime := 0 },
       [Effect.playbackStateChanged .loading]) :=
  processAudioChunks_underrun s t d hg h0 hlt

/-- Witness for C3: playing with cursor 2 while the clock reads 5. -/
theorem underrun_drops_chunk_witness :
    (chunkGuard playingState = true ∧ playingState.nextStartTime ≠ 0 ∧
      playingState.nextStartTime < 5) ∧
    processAudioChunks playingState 5 1 =
      ({ playingState with playbackState := .loading, nextStartTime := 0 },
       [Effect.playbackStateChanged .loading]) :=
  ⟨⟨by simp +decide [chunkGuard, playingState, initialState],
    by simp +decide [playingState, initialState],
    by simp +decide [playingState, initialState]⟩,
   underrun_drops_chunk playingState 5 1
    (by simp +decide [chunkGuard, playingState, initialState])
    (by simp +decide [playingState, initialState])
    (by simp +decide [playingState, initialState])⟩

/-- Counterexample to **C4** as stated: the claim says a decode that
completes after a mid-decode `stop()` is ignored because the state guard is
re-checked before scheduling. In the code the guard (line 120) runs once,
before the awaited decode, and is never re-checked. Concretely: from a
playing state the guard passes, `stop()` is then called (state becomes
`stopped`, cursor 0), and when the in-flight decode completes
(`scheduleDecoded`, clock 2, duration 1) the buffer IS scheduled (at
clock + bufferTime = 4) and the cursor IS advanced (to 5) — and a fresh
flip-to-playing timer is even armed. -/
theorem stop_middecode_not_ignored_cex :
    chunkGuard playingState = true ∧
    (stop playingState).1.playbackState = .stopped ∧
    (scheduleDecoded (stop playingState).1 2 1).2 =
      [Effect.timerArmed 4, Effect.scheduled 4 1] ∧
    (scheduleDecoded (stop playingState).1 2 1).1.nextStartTime = 5 := by
  refine ⟨by simp +decide [chunkGuard, playingState, initialState],
    by simp [stop, setPlaybackState], ?_, ?_⟩ <;>
    simp [scheduleDecoded, stop, setPlaybackState, playingState,
      initialState, bufferTime] <;> norm_num

/-- **C4 (amended)**: `processAudioChunks` checks the playback state only
once, at entry before the decode. Hence a chunk whose processing STARTS
after `stop()` is ignored (no scheduling, no cursor change, no effects);
but a decode already in flight when `stop()` is called is NOT ignored:
since `stop()` reset the cursor to 0, the completing decode re-primes the
pipeline — it schedules the buffer at clock + bufferTime, advances the
cursor to clock + bufferTime + duration, and arms a fresh flip-to-playing
timer. -/
theorem stop_middecode_schedules (s : HelperState) (t d : ℚ) :
    processAudioChunks (stop s).1 t d = ((stop s).1, []) ∧
    scheduleDecoded (stop s).1 t d =
      ({ (stop s).1 with
          nextStartTime := t + bufferTime + d,
          pendingTimers := (stop s).1.pendingTimers ++ [t + bufferTime] },
       [Effect.timerArmed (t + bufferTime),
        Effect.scheduled (t + bufferTime) d]) := by
  constructor
  · have hg : chunkGuard (stop s).1 = false := by
      simp [chunkGuard, stop, setPlaybackState]
    rw [processAudioChunks, hg]
    simp
  · have h0 : (stop s).1.nextStartTime = 0 := by
      simp [stop, setPlaybackState]
    exact scheduleDecoded_first _ t d h0

/-- **C5** (demonstrating the code bug the claim rules out): the first chunk
in the loading state arms the 2-second flip-to-playing timer; a subsequent
`stop()` leaves that timer armed (nothing in `stop()` or `pause()` touches
it), and when it fires after the stop the playback state becomes `playing` —
a stale transition after teardown. -/
theorem stale_timer_fires_after_stop :
    (processAudioChunks loadingState 0 1).1.pendingTimers = [2] ∧
    (stop (processAudioChunks loadingState 0 1).1).1.playbackState =
      .stopped ∧
    (stop (processAudioChunks loadingState 0 1).1).1.pendingTimers = [2] ∧
    (fireTimer
      (stop (processAudioChunks loadingState 0 1).1).1).1.playbackState =
      .playing := by
  refine ⟨?_, ?_, ?_, ?_⟩ <;>
    simp +decide [processAudioChunks, scheduleDecoded, chunkGuard,
      loadingState, initialState, bufferTime, setPlaybackState, stop,
      fireTimer]

/-- **C6**: a chunk batch delivered while paused or stopped is ignored
entirely: `processAudioChunks` returns with the state unchanged (cursor and
playback state included) and emits no effect, so nothing is scheduled and
nothing is buffered for later resumption. -/
theorem paused_stopped_chunks_ignored (s : HelperState) (t d : ℚ)
    (h : s.playbackState = .paused ∨ s.playbackState = .stopped) :
    processAudioChunks s t d = (s, []) := by
  have hg : chunkGuard s = false := by
    rcases h with h | h <;> simp [chunkGuard, h]
  rw [processAudioChunks, hg]
  simp

/-- Witness for C6: a paused state with a live session. -/
theorem paused_stopped_chunks_ignored_witness :
    (pausedState.playbackState = .paused ∨
      pausedState.playbackState = .stopped) ∧
    processAudioChunks pausedState 1 1 = (pausedState, []) :=
  ⟨Or.inl rfl, paused_stopped_chunks_ignored pausedState 1 1 (Or.inl rfl)⟩

/-- **C7**: whenever `setWeightedPrompts` pushes a weighted-prompt list to
the session, that list is exactly the `{text, weight}` image of the active
prompts — the prompts whose weight is nonzero and whose text is not in the
filtered set. In particular every pushed pair has nonzero weight and
unfiltered text and comes from a prompt of the map, and conversely every
prompt with nonzero weight and unfiltered text is pushed. -/
theorem pushed_prompts_exact (s : HelperState) (ps : List Prompt)
    (pushOk : Bool) (emsg : String) (wp : List (String × ℚ))
    (h : Effect.pushPrompts wp ∈ (setWeightedPromptsStep s ps pushOk emsg).2) :
    wp = (activePrompts ps s.filteredPrompts).map
          (fun p => (p.text, p.weight)) ∧
    (∀ tw ∈ wp, tw.2 ≠ 0 ∧ tw.1 ∉ s.filteredPrompts ∧
      ∃ p ∈ ps, p.text = tw.1 ∧ p.weight = tw.2) ∧
    (∀ p ∈ ps, p.weight ≠ 0 → p.text ∉ s.filteredPrompts →
      (p.text, p.weight) ∈ wp) := by
  have hwp : wp = (activePrompts ps s.filteredPrompts).map
      (fun p => (p.text, p.weight)) := by
    rw [setWeightedPromptsStep] at h
    split_ifs at h with h1 h2 h3
    · exfalso
      simp [pause, setPlaybackState] at h
    · exfalso; simp at h
    · simp at h
      exact h
    · simp [pause, setPlaybackState] at h
      exact h
  refine ⟨hwp, ?_, ?_⟩
  · intro tw htw
    rw [hwp] at htw
    simp only [activePrompts, List.mem_map, List.mem_filter] at htw
    obtain ⟨p, ⟨hpmem, hcond⟩, rfl⟩ := htw
    simp only [Bool.and_eq_true, Bool.not_eq_true', List.elem_eq_mem,
      decide_eq_false_iff_not, decide_eq_true_eq] at hcond
    exact ⟨hcond.2, hcond.1, p, hpmem, rfl, rfl⟩
  · intro p hp hw hf
    rw [hwp]
    simp only [activePrompts, List.mem_map, List.mem_filter]
    exact ⟨p, ⟨hp, by simp [hw, hf]⟩, rfl⟩

/-- Witness for C7: prompts A (weight 1) and B (weight 0), nothing
filtered, live session — only `("Techno", 1)` is pushed. -/
theorem pushed_prompts_exact_witness :
    Effect.pushPrompts pushedAB ∈
      (setWeightedPromptsStep pausedState [promptA, promptB] true "").2 ∧
    (pushedAB = (activePrompts [promptA, promptB]
        pausedState.filteredPrompts).map (fun p => (p.text, p.weight)) ∧
     (∀ tw ∈ pushedAB, tw.2 ≠ 0 ∧ tw.1 ∉ pausedState.filteredPrompts ∧
       ∃ p ∈ [promptA, promptB], p.text = tw.1 ∧ p.weight = tw.2) ∧
     (∀ p ∈ [promptA, promptB], p.weight ≠ 0 →
       p.text ∉ pausedState.filteredPrompts →
       (p.text, p.weight) ∈ pushedAB)) :=
  ⟨by simp +decide [setWeightedPromptsStep, activePrompts, pausedState,
      initialState, promptA, promptB, pushedAB],
   pushed_prompts_exact pausedState [promptA, promptB] true "" pushedAB
    (by simp +decide [setWeightedPromptsStep, activePrompts, pausedState,
      initialState, promptA, promptB, pushedAB])⟩

/-- **C8**: a `setWeightedPrompts` call whose active-prompt view is empty
raises the error notification, forces the state to `paused`, and attempts
no push; the session handle and the pending connect promise are left
untouched (the session is not torn down). -/
theorem empty_active_prompts_pause (s : HelperState) (ps : List Prompt)
    (pushOk : Bool) (emsg : String)
    (h : activePrompts ps s.filteredPrompts = []) :
    (setWeightedPromptsStep s ps pushOk emsg).1.playbackState = .paused ∧
    (setWeightedPromptsStep s ps pushOk emsg).1.sessionActive =
      s.sessionActive ∧
    (setWeightedPromptsStep s ps pushOk emsg).1.sessionPromiseActive =
      s.sessionPromiseActive ∧
    Effect.errorEvent noActiveMsg ∈
      (setWeightedPromptsStep s ps pushOk emsg).2 ∧
    ∀ wps, Effect.pushPrompts wps ∉
      (setWeightedPromptsStep s ps pushOk emsg).2 := by
  rw [setWeightedPromptsStep, if_pos (by simp [h])]
  simp [pause, setPlaybackState]

/-- Witness for C8: only the weight-0 prompt B while playing. -/
theorem empty_active_prompts_pause_witness :
    activePrompts [promptB] playingState.filteredPrompts = [] ∧
    ((setWeightedPromptsStep playingState [promptB] true "").1.playbackState
        = .paused ∧
     (setWeightedPromptsStep playingState [promptB] true "").1.sessionActive
        = playingState.sessionActive ∧
     (setWeightedPromptsStep playingState [promptB]
        true "").1.sessionPromiseActive
        = playingState.sessionPromiseActive ∧
     Effect.errorEvent noActiveMsg ∈
       (setWeightedPromptsStep playingState [promptB] true "").2 ∧
     ∀ wps, Effect.pushPrompts wps ∉
       (setWeightedPromptsStep playingState [promptB] true "").2) :=
  ⟨by simp +decide [activePrompts, promptB, playingState, initialState],
   empty_active_prompts_pause playingState [promptB] true ""
    (by simp +decide [activePrompts, promptB, playingState, initialState])⟩

/-- **C9**: the connection's `onerror` and `onclose` callbacks, from any
state, leave the engine stopped with the ScheduleCursor reset to 0, the
session handle and the pending connect promise nulled, and a user-facing
error notification dispatched. -/
theorem connection_error_teardown (s : HelperState) :
    ((onError s).1.playbackState = .stopped ∧
     (onError s).1.nextStartTime = 0 ∧
     (onError s).1.sessionActive = false ∧
     (onError s).1.sessionPromiseActive = false ∧
     Effect.errorEvent connectionErrorMsg ∈ (onError s).2) ∧
    ((onClose s).1.playbackState = .stopped ∧
     (onClose s).1.nextStartTime = 0 ∧
     (onClose s).1.sessionActive = false ∧
     (onClose s).1.sessionPromiseActive = false ∧
     Effect.errorEvent connectionErrorMsg ∈ (onClose s).2) := by
  constructor <;> simp [onError, onClose, stop, setPlaybackState]

/-- **C10**: a MIDI message `[st, lsb, msb]` whose status high nibble is
`0xE0` arriving from the active input dispatches exactly one
`pitch-bend-message` whose value is `((msb <<< 7 ||| lsb) - 8192) / 8192`;
for data bytes in `0..127` this value lies in `[-1, 1)`. A message from a
non-active input dispatches nothing at all. -/
theorem pitch_bend_dispatch (activeId : Option String) (inputId : String)
    (st lsb msb : ℕ) (ha : activeId = some inputId)
    (hm : st &&& 0xf0 = 0xe0) (hl : lsb ≤ 127) (hb : msb ≤ 127) :
    onMidiMessage activeId inputId (some [st, lsb, msb]) =
      [MidiEvent.pitchBend ((((msb <<< 7 ||| lsb : ℕ) : ℚ) - 8192) / 8192)] ∧
    -1 ≤ (((msb <<< 7 ||| lsb : ℕ) : ℚ) - 8192) / 8192 ∧
    (((msb <<< 7 ||| lsb : ℕ) : ℚ) - 8192) / 8192 < 1 ∧
    (∀ (otherId : String) (data : Option (List ℕ)),
      activeId ≠ some otherId → onMidiMessage activeId otherId data = []) := by
  subst ha
  have hraw : (msb <<< 7 ||| lsb) < 16384 := by
    have h1 : lsb < 2 ^ 7 := by omega
    have h2 : msb < 2 ^ 7 := by omega
    have h3 := Nat.append_lt h1 h2
    simpa using h3
  have hrawq : ((msb <<< 7 ||| lsb : ℕ) : ℚ) < 16384 := by
    exact_mod_cast hraw
  have h0q : (0 : ℚ) ≤ ((msb <<< 7 ||| lsb : ℕ) : ℚ) := by positivity
  refine ⟨?_, ?_, ?_, ?_⟩
  · rw [onMidiMessage]
    simp [hm]
  · rw [le_div_iff₀ (by norm_num : (0:ℚ) < 8192)]
    push_cast
    linarith
  · rw [div_lt_one (by norm_num : (0:ℚ) < 8192)]
    linarith
  · intro otherId data hne
    rw [onMidiMessage.eq_def, if_pos (Ne.symm hne)]

/-- Witness for C10: pitch bend on channel 4 (`0xE4`) with `lsb = 1`,
`msb = 64`, from the active input `"pad"`. -/
theorem pitch_bend_dispatch_witness :
    ((some "pad" : Option String) = some "pad" ∧
     (0xe4 : ℕ) &&& 0xf0 = 0xe0 ∧ (1 : ℕ) ≤ 127 ∧ (64 : ℕ) ≤ 127) ∧
    (onMidiMessage (some "pad") "pad" (some [0xe4, 1, 64]) =
       [MidiEvent.pitchBend ((((64 <<< 7 ||| 1 : ℕ) : ℚ) - 8192) / 8192)] ∧
     -1 ≤ (((64 <<< 7 ||| 1 : ℕ) : ℚ) - 8192) / 8192 ∧
     (((64 <<< 7 ||| 1 : ℕ) : ℚ) - 8192) / 8192 < 1 ∧
     (∀ (otherId : String) (data : Option (List ℕ)),
       (some "pad" : Option String) ≠ some otherId →
       onMidiMessage (some "pad") otherId data = [])) :=
  ⟨⟨rfl, by decide, by decide, by decide⟩,
   pitch_bend_dispatch (some "pad") "pad" 0xe4 1 64 rfl (by decide)
    (by decide) (by decide)⟩

end PromptDj
